import Mathlib

/-!
Shallow embedding of the keyword intent-classification pipeline
(`scripts/classify-keywords.py`) of the brand-intelligence-dashboard
repository, together with theorems settling the behavioural claims about
the filter, the batch classifier, the funnel aggregator, the exit-signal
analyzer and the persona clusterer.

Modelling conventions:
* Python `str` is Lean `String`; substring tests (`a in b`) are the
  decidable `substr`; `str.lower()` is ASCII lowering (the repository's
  keyword data is Korean, which has no case).
* Python dicts coming back from the Gemini oracle are structures with
  `Option` fields, so that `d.get(k, default)` becomes `Option.getD`.
* Search volumes are `Int` (JSON integers); ratio arithmetic is exact `ℚ`
  with Python's `round(x, 2)` modelled by round-half-to-even on `ℚ`.
* The external Gemini oracle is an explicit function parameter: the call
  number and the batch content go in, an optional parsed response comes
  out; `none` covers transport failure, exhausted retries and responses
  without the required key.
-/

namespace ClassifyKeywords

/-- Decidable prefix test on lists (model of Python string prefix use). -/
def listPrefixOf [DecidableEq α] : List α → List α → Bool
  | [], _ => true
  | _ :: _, [] => false
  | a :: as, b :: bs => a = b && listPrefixOf as bs

/-- Decidable contiguous-sublist test on lists. -/
def listSubseg [DecidableEq α] (needle : List α) : List α → Bool
  | [] => needle.isEmpty
  | b :: bs => listPrefixOf needle (b :: bs) || listSubseg needle bs

/-- Python's `needle in hay` substring test on strings. -/
def substr (needle hay : String) : Bool :=
  listSubseg needle.data hay.data

/-- Model of Python `str.lower()` (ASCII case folding). -/
def strLower (s : String) : String :=
  String.mk (s.data.map Char.toLower)

/-- Python `s.replace(" ", "")`: drop every space. -/
def removeSpaces (s : String) : String :=
  String.mk (s.data.filter (fun c => c ≠ ' '))

/-- The `FURNITURE_TERMS` list from `scripts/classify-keywords.py` (domain terms). -/
def FURNITURE_TERMS : List String := [
  "가구", "책상", "소파", "쇼파", "침대", "의자", "수납", "옷장", "책장", "선반",
  "테이블", "서랍", "매트리스", "쿠션", "식탁", "찬장", "화장대",
  "신발장", "행거", "리클라이너", "벤치", "스툴", "협탁", "장식장",
  "TV장", "tv장", "거울", "진열장", "콘솔", "사이드", "수납장",
  "책꽂이", "모션베드", "씽크대", "붙박이장", "장롱", "장농", "이불장",
  "침대프레임", "베드프레임", "헤드보드", "데스크", "데스크테리어",
  "거실", "침실", "아이방", "서재", "주방", "현관", "드레스룸", "베란다",
  "모션데스크", "전동", "높이조절", "패브릭", "가죽", "원목", "대리석",
  "모듈러", "붙박이", "벽선반", "조립", "접이식", "확장형", "성장형",
  "인테리어", "꾸미기", "리모델링", "배치", "풍수",
  "신혼", "혼수", "이사", "원룸", "자취", "기숙사",
  "배송", "설치", "AS", "a/s", "교환", "반품", "할인", "세일",
  "가격", "매장", "아울렛", "중고", "쿠폰", "후기", "리뷰",
  "데스커", "시디즈", "에몬스", "리바트", "퍼시스", "듀오백",
  "니트리", "보루네오", "체리쉬", "룸앤", "무인양품", "스칸디나"]

/-- The `EXCLUDE_TERMS` list from `scripts/classify-keywords.py` (noise terms). -/
def EXCLUDE_TERMS : List String := [
  "세계지도", "벽지", "도배", "페인트", "타일", "바닥재",
  "에어컨", "냉장고", "세탁기", "청소기",
  "노트북", "핸드폰", "이어폰", "헤드폰",
  "화장품", "향수",
  "자동차", "오토바이",
  "여행", "호텔", "펜션", "캠핑",
  "맛집", "베이커리",
  "영화", "드라마",
  "주식", "코인",
  "반도체", "상록회관", "웨딩박람회", "웨딩드레스",
  "혼주한복", "결혼반지", "출산선물", "출산준비",
  "전시회", "박람회"]

/-- A raw keyword-volume record (element of `related-keywords.json`).
The embedding keeps the two fields the pipeline reads: `keyword` and
`total`. -/
structure KeywordRec where
  keyword : String
  total : Int
deriving DecidableEq, Repr

/-- Model of `is_furniture_related(keyword)`: brand names (from `config.json`,
passed here as the `allBrands` parameter) are checked first, then the
domain-term list, then the exclusion list; the default is `false`.  The
checks mirror the source's three sequential loops. -/
def is_furniture_related (allBrands : List String) (keyword : String) : Bool :=
  let kw := strLower keyword
  if allBrands.any (fun b =>
      substr (strLower b) kw || substr (removeSpaces (strLower b)) kw) then
    true
  else if FURNITURE_TERMS.any (fun t => substr t kw) then
    true
  else if EXCLUDE_TERMS.any (fun t => substr t kw) then
    false
  else
    false

/-- Model of `filter_keywords(keywords, min_volume)`: drop records below the volume
floor, partition the rest into `(relevant, filtered_out)` by
`is_furniture_related`, preserving input order. -/
def filter_keywords (allBrands : List String) (min_volume : Int) :
    List KeywordRec → List KeywordRec × List KeywordRec
  | [] => ([], [])
  | kw :: rest =>
    let p := filter_keywords allBrands min_volume rest
    if kw.total < min_volume then p
    else if is_furniture_related allBrands kw.keyword then (kw :: p.1, p.2)
    else (p.1, kw :: p.2)

/-- A classified-keyword dict as produced by the oracle or the fallback.
Oracle responses are loosely typed, so every field is optional; the
pipeline reads them with `get` defaults (`""`, `0`, `"awareness"`). -/
structure ClassifiedKW where
  keyword : Option String
  volume : Option Int
  stage : Option String
deriving DecidableEq, Repr

/-- Read `item.get("keyword", "")`. -/
def kwD (c : ClassifiedKW) : String := c.keyword.getD ""

/-- Read `item.get("volume", 0)`. -/
def volD (c : ClassifiedKW) : Int := c.volume.getD 0

/-- Read `item.get("stage", "awareness")`. -/
def stageD (c : ClassifiedKW) : String := c.stage.getD "awareness"

/-- The fallback record built for a keyword when a batch's oracle calls
are exhausted: echo keyword and volume, stage `"awareness"`. -/
def fallbackKW (k : KeywordRec) : ClassifiedKW :=
  { keyword := some k.keyword, volume := some k.total, stage := some "awareness" }

/-- Fuel-indexed batching: split a list into consecutive chunks of 150
(the `range(0, len(keywords), batch_size)` loop with `batch_size = 150`).
The fuel argument makes the recursion structural. -/
def batchesAux : Nat → List α → List (List α)
  | 0, _ => []
  | _, [] => []
  | fuel + 1, l => l.take 150 :: batchesAux fuel (l.drop 150)

/-- The batches of 150 submitted by `classify_intent`. -/
def batches150 (l : List α) : List (List α) :=
  batchesAux l.length l

/-- An intent-classification oracle: given the 0-based batch number and
the batch content, return the parsed `results` array, or `none` when the
call failed for that batch (transport error, parse failure after all
retries, or a response without a usable `results` key). -/
def IntentOracle : Type :=
  Nat → List KeywordRec → Option (List ClassifiedKW)

/-- The batch loop of `classify_intent`: for each batch, extend the
accumulated results with the oracle's `results` array on success, or with
one `fallbackKW` per batch keyword on failure. -/
def classifyBatches (oracle : IntentOracle) : Nat → List (List KeywordRec) → List ClassifiedKW
  | _, [] => []
  | i, b :: bs =>
    (match oracle i b with
     | some results => results
     | none => b.map fallbackKW) ++ classifyBatches oracle (i + 1) bs

/-- Model of `classify_intent(client, keywords)`: batch the input into chunks of
150 and run the batch loop from batch number 0. -/
def classify_intent (oracle : IntentOracle) (keywords : List KeywordRec) :
    List ClassifiedKW :=
  classifyBatches oracle 0 (batches150 keywords)

/-- Index of the first occurrence of `c` in `s` (Python `str.find`,
`none` for `-1`). -/
def strFind (s : String) (c : Char) : Option Nat :=
  s.data.findIdx? (fun a => a = c)

/-- Index of the last occurrence of `c` in `s` (Python `str.rfind`,
`none` for `-1`). -/
def strRfind (s : String) (c : Char) : Option Nat :=
  match (s.data.reverse.findIdx? (fun a => a = c)) with
  | none => none
  | some i => some (s.data.length - 1 - i)

/-- Python slice `s[a:b]` on code points. -/
def strSlice (s : String) (a b : Nat) : String :=
  String.mk ((s.data.drop a).take (b - a))

/-- The brace-substring recovery of `call_gemini`: when strict JSON
parsing fails, take `start = text.find("\x7b")` and `end = text.rfind("\x7d") + 1`
and, if `start >= 0 and end > start`, re-parse `text[start:end]`.  The
function returns the substring handed to the re-parse, or `none` when the
guard fails and the attempt is abandoned. -/
def gemRecover (text : String) : Option String :=
  match strFind text '{' with
  | none => none
  | some s =>
    match strRfind text '}' with
    | none => none
    | some j => if s < j + 1 then some (strSlice text s (j + 1)) else none

/-- Modelled from the spec (claim wording, for comparison with
`gemRecover`): recovery that looks for the first opening bracket of
either kind (`{` or `[`) and the last closing bracket of either kind
(`}` or `]`). -/
def specRecover (text : String) : Option String :=
  match text.data.findIdx? (fun a => a = '{' || a = '[') with
  | none => none
  | some s =>
    match (text.data.reverse.findIdx? (fun a => a = '}' || a = ']')) with
    | none => none
    | some i =>
      let j := text.data.length - 1 - i
      if s < j + 1 then some (strSlice text s (j + 1)) else none

/-- Round-half-to-even on `ℚ` (the tie rule of Python's `round`). -/
def roundHE (q : ℚ) : ℤ :=
  let f := q.floor
  let r := q - (f : ℚ)
  if Rat.blt r (1 / 2) then f
  else if Rat.blt (1 / 2) r then f + 1
  else if f % 2 = 0 then f else f + 1

/-- Python `round(x, 2)` modelled on exact rationals. -/
def round2 (q : ℚ) : ℚ :=
  (roundHE (q * 100) : ℚ) / 100

/-- Stable descending insertion by an integer key (inner step). -/
def insertDescBy (key : α → Int) (c : α) : List α → List α
  | [] => [c]
  | x :: xs => if key x ≤ key c then c :: x :: xs else x :: insertDescBy key c xs

/-- Stable descending sort by an integer key: the model of Python
`sorted(items, key=..., reverse=True)` (any stable sort computes the same
list). -/
def sortDescBy (key : α → Int) : List α → List α
  | [] => []
  | x :: xs => insertDescBy key x (sortDescBy key xs)

/-- One value of the `competitors_exit` mapping of `analyze_exit_signals`
(the synthetic `"기타"` bucket carries an empty `sample`). -/
structure ExitEntry where
  mention_count : Nat
  share : ℚ
  sample : List String
deriving DecidableEq, Repr

/-- The consideration-stage keywords: `k.get("stage") == "consideration"`. -/
def considerationOf (cks : List ClassifiedKW) : List ClassifiedKW :=
  cks.filter (fun k => k.stage = some "consideration")

/-- The consideration keywords whose text contains the competitor name
(`comp in k.get("keyword", "")`). -/
def mentionsOf (comp : String) (cons : List ClassifiedKW) : List ClassifiedKW :=
  cons.filter (fun k => substr comp (kwD k))

/-- The per-competitor body of the `analyze_exit_signals` loop: `none`
when the competitor has no mentions, otherwise the dict entry with
mention count, rounded share of the consideration total, and the three
top-volume sample keywords. -/
def exitEntryFor (cons : List ClassifiedKW) (comp : String) :
    Option (String × ExitEntry) :=
  let m := mentionsOf comp cons
  if m.isEmpty then none
  else some (comp,
    { mention_count := m.length,
      share := round2 ((m.length : ℚ) / (max cons.length 1 : ℚ)),
      sample := ((sortDescBy volD m).take 3).map kwD })

/-- Model of `analyze_exit_signals(classified_keywords)`: per configured
competitor, an entry with mention count, rounded share and top-3 sample is
created only when the competitor is mentioned at least once; the leftover
count, when strictly positive, goes into a `"기타"` bucket.  The Python
dict (string keys, insertion order) is an association list. -/
def analyze_exit_signals (competitors : List String) (cks : List ClassifiedKW) :
    List (String × ExitEntry) :=
  let cons := considerationOf cks
  let named := competitors.filterMap (exitEntryFor cons)
  let total : Nat := (named.map (fun p => p.2.mention_count)).sum
  let other : Int := (cons.length : Int) - total
  if 0 < other then
    named ++ [("기타",
      { mention_count := other.toNat,
        share := round2 ((other : ℚ) / (max cons.length 1 : ℚ)),
        sample := [] })]
  else named

/-- The three stage buckets built by `save_consumer_journey`'s loop. -/
structure StageBuckets where
  awareness : List ClassifiedKW
  consideration : List ClassifiedKW
  conversion : List ClassifiedKW
deriving DecidableEq, Repr

/-- One iteration of the bucketing loop: `stage = item.get("stage",
"awareness"); if stage in stages: stages[stage].append(item)` — an item
whose stage label is outside the three dict keys is appended nowhere. -/
def addItem (b : StageBuckets) (c : ClassifiedKW) : StageBuckets :=
  let s := stageD c
  if s = "awareness" then { b with awareness := b.awareness ++ [c] }
  else if s = "consideration" then { b with consideration := b.consideration ++ [c] }
  else if s = "conversion" then { b with conversion := b.conversion ++ [c] }
  else b

/-- The bucketing loop over the classified list. -/
def buildBuckets (cks : List ClassifiedKW) : StageBuckets :=
  cks.foldl addItem ⟨[], [], []⟩

/-- One stage object of `consumer-journey.json` (the fields the pipeline
computes; `exit_signals` is attached only to the consideration stage and
only when the analyzer's mapping is nonempty). -/
structure FunnelStage where
  label : String
  description : String
  keyword_count : Nat
  total_volume : Int
  share : ℚ
  sample_keywords : List ClassifiedKW
  exit_signals : Option (List (String × ExitEntry))
deriving DecidableEq, Repr

/-- The `funnel_summary` object of `consumer-journey.json`. -/
structure FunnelSummary where
  awareness_to_consideration : ℚ
  consideration_to_conversion : ℚ
  estimated_leak_rate : ℚ
  primary_leak_destination : String
deriving DecidableEq, Repr

/-- The journey report (meta fields that depend on wall-clock time are
omitted). -/
structure Journey where
  total_keywords_analyzed : Nat
  total_keywords_pool : Nat
  awareness : FunnelStage
  consideration : FunnelStage
  conversion : FunnelStage
  funnel_summary : FunnelSummary
deriving DecidableEq, Repr

/-- Model of `max(exit_signals.items(), key=...)[0] if exit_signals else "unknown"`:
Python `max` keeps the first of equally scored entries. -/
def primaryLeak (l : List (String × ExitEntry)) : String :=
  match l with
  | [] => "unknown"
  | x :: xs =>
    (xs.foldl (fun best y =>
      if best.2.mention_count < y.2.mention_count then y else best) x).1

/-- One stage entry of the journey: count, volume sum, rounded share of
the classified total, and the 10 highest-volume sample keywords. -/
def mkStage (lab desc : String) (items : List ClassifiedKW) (totalLen : Nat)
    (ex : Option (List (String × ExitEntry))) : FunnelStage :=
  { label := lab,
    description := desc,
    keyword_count := items.length,
    total_volume := (items.map volD).sum,
    share := round2 ((items.length : ℚ) / (max totalLen 1 : ℚ)),
    sample_keywords := (sortDescBy volD items).take 10,
    exit_signals := ex }

/-- Model of `save_consumer_journey(classified_keywords, total_relevant)`: bucket
the classified keywords, attach exit signals to the consideration stage
when nonempty, and derive the funnel summary with `max(x, 1)` guards. -/
def save_consumer_journey (competitors : List String)
    (cks : List ClassifiedKW) (total_relevant : Nat) : Journey :=
  let b := buildBuckets cks
  let ex := analyze_exit_signals competitors cks
  let aw := mkStage "인지 (Awareness)" "카테고리/니즈 기반 검색" b.awareness cks.length none
  let co := mkStage "비교 (Consideration)" "브랜드 비교/리뷰 검색" b.consideration cks.length
    (if ex.isEmpty then none else some ex)
  let cv := mkStage "구매 (Conversion)" "가격/구매처/매장 검색" b.conversion cks.length none
  { total_keywords_analyzed := cks.length,
    total_keywords_pool := total_relevant,
    awareness := aw,
    consideration := co,
    conversion := cv,
    funnel_summary :=
      { awareness_to_consideration :=
          round2 ((co.total_volume : ℚ) / (max aw.total_volume 1 : ℚ)),
        consideration_to_conversion :=
          round2 ((cv.total_volume : ℚ) / (max co.total_volume 1 : ℚ)),
        estimated_leak_rate :=
          round2 (1 - (cv.total_volume : ℚ) / (max aw.total_volume 1 : ℚ)),
        primary_leak_destination := primaryLeak ex } }

/-- A `{keyword, volume}` pair inside an oracle cluster (loosely typed,
as the oracle may omit fields). -/
structure CKV where
  keyword : Option String
  volume : Option Int
deriving DecidableEq, Repr

/-- Read `k.get("volume", 0)` on a cluster keyword pair. -/
def cvolD (k : CKV) : Int := k.volume.getD 0

/-- One cluster of the parsed clustering-oracle response. -/
structure RawCluster where
  id : Option String
  persona : Option String
  description : Option String
  keywords : List CKV
  needs : List String
  pain_points : List String
deriving DecidableEq, Repr

/-- The parsed clustering-oracle response (`{"clusters": [...]}`). -/
structure ClusterResult where
  clusters : List RawCluster
deriving DecidableEq, Repr

/-- A clustering oracle: the request content (the keyword slice embedded
in the prompt) goes in; `none` is a failed call or a response without a
usable `clusters` key. -/
def ClusterOracle : Type :=
  List KeywordRec → Option ClusterResult

/-- Model of `cluster_personas(client, keywords)`: one oracle request over the
top-300 slice `keywords[:300]` of the relevant pool. -/
def cluster_personas (oracle : ClusterOracle) (keywords : List KeywordRec) :
    Option ClusterResult :=
  oracle (keywords.take 300)

/-- One output cluster of `keyword-clusters.json`. -/
structure OutCluster where
  id : String
  persona : String
  description : String
  color : String
  keyword_count : Nat
  total_volume : Int
  share : ℚ
  top_keywords : List CKV
  needs : List String
  pain_points : List String
deriving DecidableEq, Repr

/-- The color palette of `save_keyword_clusters`. -/
def colors : List String :=
  ["#8b5cf6", "#ec4899", "#06b6d4", "#f59e0b", "#22c55e", "#ef4444"]

/-- Model of `save_keyword_clusters(cluster_result, total_relevant)`: map each
oracle cluster to an output cluster with palette color by index, volume
share of the cross-cluster volume total, and the 7 highest-volume
keywords. -/
def save_keyword_clusters (cluster_result : ClusterResult) : List OutCluster :=
  let total_vol : Int :=
    (cluster_result.clusters.map (fun cl => (cl.keywords.map cvolD).sum)).sum
  (List.range cluster_result.clusters.length).zip cluster_result.clusters |>.map
    (fun (p : Nat × RawCluster) =>
      let i := p.1
      let cl := p.2
      let cl_volume := (cl.keywords.map cvolD).sum
      { id := cl.id.getD ("cluster-" ++ toString (i + 1)),
        persona := cl.persona.getD ("그룹 " ++ toString (i + 1)),
        description := cl.description.getD "",
        color := colors.getD (i % colors.length) "",
        keyword_count := cl.keywords.length,
        total_volume := cl_volume,
        share := round2 ((cl_volume : ℚ) / (max total_vol 1 : ℚ)),
        top_keywords := (sortDescBy cvolD cl.keywords).take 7,
        needs := cl.needs,
        pain_points := cl.pain_points })

/-- The clustering leg of `main()`: a failed or cluster-less oracle
response is replaced by `{"clusters": []}` before saving. -/
def clusterReport (oracle : ClusterOracle) (keywords : List KeywordRec) :
    List OutCluster :=
  save_keyword_clusters ((cluster_personas oracle keywords).getD ⟨[]⟩)

/-! ### Lemmas about the heuristic filter -/

/-- A keyword containing a domain term is accepted by
`is_furniture_related`, whatever the brand and exclusion checks say. -/
theorem is_furniture_related_of_term (allBrands : List String) (k : String)
    (h : ∃ t ∈ FURNITURE_TERMS, substr t (strLower k) = true) :
    is_furniture_related allBrands k = true := by
  obtain ⟨t, ht, hsub⟩ := h
  unfold is_furniture_related
  dsimp only
  by_cases hb : (allBrands.any fun b =>
      substr (strLower b) (strLower k) || substr (removeSpaces (strLower b)) (strLower k)) = true
  · rw [if_pos hb]
  · rw [if_neg hb, if_pos (List.any_eq_true.mpr ⟨t, ht, hsub⟩)]

/-- Every record in either output of `filter_keywords` meets the volume
floor. -/
theorem filter_keywords_volume (allBrands : List String) (min_volume : Int) :
    ∀ (keywords : List KeywordRec) (kw : KeywordRec),
      (kw ∈ (filter_keywords allBrands min_volume keywords).1 ∨
       kw ∈ (filter_keywords allBrands min_volume keywords).2) →
      min_volume ≤ kw.total := by
  intro keywords
  induction keywords with
  | nil => intro kw h; simp [filter_keywords] at h
  | cons a rest ih =>
    intro kw h
    simp only [filter_keywords] at h
    by_cases hv : a.total < min_volume
    · rw [if_pos hv] at h
      exact ih kw h
    · rw [if_neg hv] at h
      by_cases hf : is_furniture_related allBrands a.keyword = true
      · rw [if_pos hf] at h
        rcases h with h | h
        · rcases List.mem_cons.mp h with rfl | h
          · exact Int.not_lt.mp hv
          · exact ih kw (Or.inl h)
        · exact ih kw (Or.inr h)
      · rw [if_neg hf] at h
        rcases h with h | h
        · exact ih kw (Or.inl h)
        · rcases List.mem_cons.mp h with rfl | h
          · exact Int.not_lt.mp hv
          · exact ih kw (Or.inr h)

/-- A record meeting the floor whose keyword contains a domain term lands
in the relevant output. -/
theorem filter_keywords_relevant_of_term (allBrands : List String)
    (min_volume : Int) :
    ∀ (keywords : List KeywordRec) (kw : KeywordRec),
      kw ∈ keywords → min_volume ≤ kw.total →
      (∃ t ∈ FURNITURE_TERMS, substr t (strLower kw.keyword) = true) →
      kw ∈ (filter_keywords allBrands min_volume keywords).1 := by
  intro keywords
  induction keywords with
  | nil => intro kw h; simp at h
  | cons a rest ih =>
    intro kw hmem hv ht
    simp only [filter_keywords]
    rcases List.mem_cons.mp hmem with rfl | hmem
    · rw [if_neg (Int.not_lt.mpr hv), if_pos (is_furniture_related_of_term allBrands kw.keyword ht)]
      exact List.mem_cons_self _ _
    · have hrec := ih kw hmem hv ht
      by_cases hva : a.total < min_volume
      · rw [if_pos hva]; exact hrec
      · rw [if_neg hva]
        by_cases hf : is_furniture_related allBrands a.keyword = true
        · rw [if_pos hf]; exact List.mem_cons_of_mem _ hrec
        · rw [if_neg hf]; exact hrec

/-- C3: a keyword below the volume floor appears in neither output of
`filter_keywords`, and a keyword at or above the floor whose text
contains both a domain (furniture) term and an exclusion term is
classified relevant — domain-term inclusion is checked before
exclusion. -/
theorem C3_filter_floor_and_term_precedence (allBrands : List String)
    (min_volume : Int) (keywords : List KeywordRec) (kw : KeywordRec)
    (hmem : kw ∈ keywords) (hv : min_volume ≤ kw.total)
    (hterm : ∃ t ∈ FURNITURE_TERMS, substr t (strLower kw.keyword) = true)
    (_hexcl : ∃ e ∈ EXCLUDE_TERMS, substr e (strLower kw.keyword) = true) :
    (∀ lowkw : KeywordRec,
      lowkw.total < min_volume →
      lowkw ∉ (filter_keywords allBrands min_volume keywords).1 ∧
      lowkw ∉ (filter_keywords allBrands min_volume keywords).2) ∧
    kw ∈ (filter_keywords allBrands min_volume keywords).1 := by
  constructor
  · intro lowkw hlow
    constructor
    · intro hin
      exact absurd (filter_keywords_volume allBrands min_volume keywords lowkw (Or.inl hin))
        (Int.not_le.mpr hlow)
    · intro hin
      exact absurd (filter_keywords_volume allBrands min_volume keywords lowkw (Or.inr hin))
        (Int.not_le.mpr hlow)
  · exact filter_keywords_relevant_of_term allBrands min_volume keywords kw hmem hv hterm

/-- Witness for C3: `"책상 여행"` (volume 100, floor 50) contains the
domain term `"책상"` and the exclusion term `"여행"` and is kept as
relevant, while a volume-10 record is in neither output. -/
theorem C3_witness :
    (⟨"책상 여행", 10⟩ : KeywordRec) ∉
      (filter_keywords ["일룸"] 50 [⟨"책상 여행", 100⟩]).1 ∧
    (⟨"책상 여행", 100⟩ : KeywordRec) ∈
      (filter_keywords ["일룸"] 50 [⟨"책상 여행", 100⟩]).1 := by
  have h := C3_filter_floor_and_term_precedence ["일룸"] 50
    [⟨"책상 여행", 100⟩] ⟨"책상 여행", 100⟩
    (by decide) (by decide)
    ⟨"책상", by decide, by decide⟩ ⟨"여행", by decide, by decide⟩
  exact ⟨(h.1 ⟨"책상 여행", 10⟩ (by decide)).1, h.2⟩

/-! ### Lemmas about batching and the deterministic fallback -/

/-- The chunks of `batchesAux` concatenate back to the input list. -/
theorem batchesAux_join : ∀ (fuel : Nat) (l : List α), l.length ≤ fuel →
    (batchesAux fuel l).flatten = l := by
  intro fuel
  induction fuel with
  | zero =>
    intro l hl
    rw [List.length_eq_zero.mp (Nat.le_zero.mp hl)]
    rfl
  | succ n ih =>
    intro l hl
    cases l with
    | nil => rfl
    | cons a as =>
      show ((a :: as).take 150 :: batchesAux n ((a :: as).drop 150)).flatten = a :: as
      rw [List.flatten_cons, ih (((a :: as).drop 150)) ?_, List.take_append_drop]
      have : (a :: as).length = as.length + 1 := rfl
      simp only [List.length_drop]
      omega

/-- The chunks of `batches150` concatenate back to the input list. -/
theorem batches150_join (l : List α) : (batches150 l).flatten = l :=
  batchesAux_join l.length l (Nat.le_refl _)

/-- When the oracle fails on every call, the batch loop maps the
fallback record over all batched keywords. -/
theorem classifyBatches_all_fail (oracle : IntentOracle)
    (hfail : ∀ i b, oracle i b = none) :
    ∀ (i : Nat) (bs : List (List KeywordRec)),
      classifyBatches oracle i bs = bs.flatten.map fallbackKW := by
  intro i bs
  induction bs generalizing i with
  | nil => rfl
  | cons b rest ih =>
    show (match oracle i b with
      | some results => results
      | none => b.map fallbackKW) ++ classifyBatches oracle (i + 1) rest
      = ((b :: rest).flatten).map fallbackKW
    rw [hfail i b, ih (i + 1), List.flatten_cons, List.map_append]

/-- C1: if every oracle call fails, `classify_intent` returns exactly one
result per input keyword, and every returned record's stage is
`"awareness"` (hence inside the fixed three-value stage set). -/
theorem C1_fallback_guarantee (oracle : IntentOracle)
    (keywords : List KeywordRec) (hfail : ∀ i b, oracle i b = none) :
    (classify_intent oracle keywords).length = keywords.length ∧
    ∀ c ∈ classify_intent oracle keywords,
      c.stage = some "awareness" ∧
      stageD c ∈ ["awareness", "consideration", "conversion"] := by
  have hmap : classify_intent oracle keywords = keywords.map fallbackKW := by
    rw [classify_intent, classifyBatches_all_fail oracle hfail, batches150_join]
  rw [hmap]
  refine ⟨List.length_map _ _, ?_⟩
  intro c hc
  obtain ⟨k, _, rfl⟩ := List.mem_map.mp hc
  exact ⟨rfl, by simp [stageD, fallbackKW]⟩

/-- Witness for C1: the always-failing oracle on a two-keyword pool still
yields two classified records. -/
theorem C1_witness :
    (classify_intent (fun _ _ => none) [⟨"a", 3⟩, ⟨"b", 4⟩]).length = 2 :=
  (C1_fallback_guarantee (fun _ _ => none) [⟨"a", 3⟩, ⟨"b", 4⟩]
    (fun _ _ => rfl)).1

/-- Counterexample to C5 as stated: a syntactically valid oracle response
covering only one of a two-keyword batch makes `classify_intent` return
one record for two inputs — the partial response is accepted as-is. -/
theorem C5_counterexample :
    (classify_intent (fun _ _ => some [⟨some "a", some 3, some "awareness"⟩])
        [⟨"a", 3⟩, ⟨"b", 4⟩]).length ≠
      ([⟨"a", 3⟩, ⟨"b", 4⟩] : List KeywordRec).length := by decide

/-- The batch loop's output length is the sum of the per-batch
contributions: the response length on success, the batch length on
failure. -/
theorem classifyBatches_length (oracle : IntentOracle)
    (hlen : ∀ i b r, oracle i b = some r → r.length = b.length) :
    ∀ (i : Nat) (bs : List (List KeywordRec)),
      (classifyBatches oracle i bs).length = (bs.map List.length).sum := by
  intro i bs
  induction bs generalizing i with
  | nil => rfl
  | cons b rest ih =>
    show ((match oracle i b with
      | some results => results
      | none => b.map fallbackKW) ++ classifyBatches oracle (i + 1) rest).length
      = ((b :: rest).map List.length).sum
    rw [List.length_append, ih (i + 1)]
    cases ho : oracle i b with
    | none => simp
    | some r => simp [hlen i b r ho]

/-- C5 amended: `classify_intent` preserves the input length provided
every successful oracle response carries exactly one result per keyword
of its batch (a partial response shortens the output, a fallback batch
preserves it). -/
theorem C5_length_preservation (oracle : IntentOracle)
    (keywords : List KeywordRec)
    (hlen : ∀ i b r, oracle i b = some r → r.length = b.length) :
    (classify_intent oracle keywords).length = keywords.length := by
  rw [classify_intent, classifyBatches_length oracle hlen]
  rw [← List.length_flatten, batches150_join]

/-- Witness for C5 amended: an oracle echoing one record per batch
keyword preserves the length 2. -/
theorem C5_witness :
    (classify_intent (fun _ b => some (b.map fallbackKW))
        [⟨"a", 3⟩, ⟨"b", 4⟩]).length = 2 :=
  Eq.trans
    (C5_length_preservation (fun _ b => some (b.map fallbackKW))
      [⟨"a", 3⟩, ⟨"b", 4⟩]
      (fun _ b r hr => by cases hr; exact List.length_map b fallbackKW))
    rfl

/-! ### Lemmas about the brace-substring recovery -/

/-- Running `findIdx?` over a list whose prefix has no hit finds the first
marker. -/
theorem findIdx?_first_marker (p : α → Bool) :
    ∀ (pd : List α), (∀ a ∈ pd, p a = false) →
      ∀ (rest : List α) (x : α), p x = true →
        (pd ++ x :: rest).findIdx? p = some pd.length := by
  intro pd
  induction pd with
  | nil =>
    intro _ rest x hx
    simp [List.findIdx?_cons, hx]
  | cons c cs ih =>
    intro hnone rest x hx
    have hc : p c = false := hnone c (List.mem_cons_self _ _)
    have := ih (fun a ha => hnone a (List.mem_cons_of_mem _ ha)) rest x hx
    simp [List.findIdx?_cons, hc, this]

/-- Counterexample to C6 as stated: the recovery of `call_gemini` only
looks for `{`/`}`, so a response whose only JSON payload is a top-level
array wrapped in prose is not recovered, while the claimed
either-bracket recovery would extract the array. -/
theorem C6_counterexample :
    gemRecover "Sure! Here is the JSON: [1, 2]" = none ∧
    specRecover "Sure! Here is the JSON: [1, 2]" = some "[1, 2]" := by decide

/-- C6 amended: the recovery locates the first `{` and the last `}` of
the raw text and extracts exactly that substring (here: prose before the
first `{` contains no `{`, prose after the last `}` contains no `}`),
while a text without any `{` — in particular one whose only payload is a
top-level array — is never recovered. -/
theorem C6_brace_only_recovery :
    (∀ p m q : String, ('{' ∉ p.data) → ('}' ∉ q.data) →
      gemRecover (p ++ "\x7b" ++ m ++ "\x7d" ++ q) = some ("\x7b" ++ m ++ "\x7d")) ∧
    (∀ t : String, '{' ∉ t.data → gemRecover t = none) := by
  constructor
  · intro p m q hp hq
    have hdata : (p ++ "\x7b" ++ m ++ "\x7d" ++ q).data
        = p.data ++ '{' :: (m.data ++ '}' :: q.data) := by
      simp [String.data_append]
    have hfind : strFind (p ++ "\x7b" ++ m ++ "\x7d" ++ q) '{' = some p.data.length := by
      rw [strFind, hdata]
      exact findIdx?_first_marker _ p.data
        (by intro a ha; simp; intro h; exact hp (h ▸ ha))
        _ '{' (by simp)
    have hrevdata : (p ++ "\x7b" ++ m ++ "\x7d" ++ q).data.reverse
        = q.data.reverse ++ '}' :: (m.data.reverse ++ '{' :: p.data.reverse) := by
      rw [hdata]; simp
    have hrfindIdx : (p ++ "\x7b" ++ m ++ "\x7d" ++ q).data.reverse.findIdx?
        (fun a => a = '}') = some q.data.reverse.length := by
      rw [hrevdata]
      exact findIdx?_first_marker _ q.data.reverse
        (by intro a ha; simp; intro h; exact hq (h ▸ List.mem_reverse.mp ha))
        _ '}' (by simp)
    have hlen : (p ++ "\x7b" ++ m ++ "\x7d" ++ q).data.length
        = p.data.length + m.data.length + q.data.length + 2 := by
      rw [hdata]; simp; omega
    have hrfind : strRfind (p ++ "\x7b" ++ m ++ "\x7d" ++ q) '}'
        = some (p.data.length + m.data.length + 1) := by
      rw [strRfind, hrfindIdx]
      simp only [List.length_reverse, hlen]
      congr 1
      omega
    rw [gemRecover, hfind, hrfind]
    dsimp only
    rw [if_pos (by omega)]
    congr 1
    rw [strSlice, hdata]
    have hdrop : (p.data ++ '{' :: (m.data ++ '}' :: q.data)).drop p.data.length
        = '{' :: (m.data ++ '}' :: q.data) := by
      rw [List.drop_left]
    rw [hdrop]
    have htakeLen : p.data.length + m.data.length + 1 + 1 - p.data.length
        = ('{' :: (m.data ++ ['}'])).length := by simp; omega
    have hsplit : '{' :: (m.data ++ '}' :: q.data)
        = ('{' :: (m.data ++ ['}'])) ++ q.data := by simp
    rw [htakeLen, hsplit, List.take_left]
    apply congrArg String.mk
    simp [String.data_append]
  · intro t ht
    have : strFind t '{' = none := by
      rw [strFind, List.findIdx?_eq_none_iff]
      intro a ha
      simp
      intro h
      exact ht (h ▸ ha)
    rw [gemRecover, this]

/-- Witness for C6 amended: prose around a brace payload is stripped, and
a pure-array response yields no recovery. -/
theorem C6_witness :
    gemRecover ("ok: " ++ "\x7b" ++ "a: 1" ++ "\x7d" ++ " bye") =
      some ("\x7b" ++ "a: 1" ++ "\x7d") ∧
    gemRecover "[1, 2]" = none :=
  ⟨C6_brace_only_recovery.1 "ok: " "a: 1" " bye" (by decide) (by decide),
   C6_brace_only_recovery.2 "[1, 2]" (by decide)⟩

/-! ### Lemmas about the funnel aggregation -/

/-- Effective-stage test: the item's stage (missing label defaulting to
`"awareness"`) equals `s`. -/
def isStage (s : String) (c : ClassifiedKW) : Bool :=
  stageD c = s

/-- Keyword volume bucketed per effective stage, computed directly from
the classified list (specification-side aggregate used to relate the
journey's fields to the input). -/
def stageVolume (s : String) (cks : List ClassifiedKW) : Int :=
  ((cks.filter (isStage s)).map volD).sum

/-- The bucketing fold equals the three stage filters (out-of-set stage
labels land in no bucket). -/
theorem foldl_addItem : ∀ (cks : List ClassifiedKW) (b : StageBuckets),
    cks.foldl addItem b =
      ⟨b.awareness ++ cks.filter (isStage "awareness"),
       b.consideration ++ cks.filter (isStage "consideration"),
       b.conversion ++ cks.filter (isStage "conversion")⟩ := by
  intro cks
  induction cks with
  | nil => intro b; simp
  | cons c rest ih =>
    intro b
    rw [List.foldl_cons, ih]
    by_cases h1 : stageD c = "awareness"
    · have h2 : ¬ stageD c = "consideration" := by rw [h1]; decide
      have h3 : ¬ stageD c = "conversion" := by rw [h1]; decide
      simp [addItem, h1, h2, h3, isStage, List.filter_cons]
    · by_cases h2 : stageD c = "consideration"
      · have h3 : ¬ stageD c = "conversion" := by rw [h2]; decide
        simp [addItem, h1, h2, h3, isStage, List.filter_cons]
      · by_cases h3 : stageD c = "conversion"
        · simp [addItem, h1, h2, h3, isStage, List.filter_cons]
        · simp [addItem, h1, h2, h3, isStage, List.filter_cons]

/-- The fold `buildBuckets` is the three stage filters. -/
theorem buildBuckets_filters (cks : List ClassifiedKW) :
    buildBuckets cks =
      ⟨cks.filter (isStage "awareness"),
       cks.filter (isStage "consideration"),
       cks.filter (isStage "conversion")⟩ := by
  rw [buildBuckets, foldl_addItem]
  rfl

/-- Counterexample to C2 as stated: a classified keyword carrying the
out-of-set stage label `"neutral"` is appended to no bucket, so the three
keyword counts sum to 0 while the classified list has length 1. -/
theorem C2_counterexample :
    (save_consumer_journey [] [⟨some "x", some 5, some "neutral"⟩] 1).awareness.keyword_count +
    (save_consumer_journey [] [⟨some "x", some 5, some "neutral"⟩] 1).consideration.keyword_count +
    (save_consumer_journey [] [⟨some "x", some 5, some "neutral"⟩] 1).conversion.keyword_count ≠
    ([⟨some "x", some 5, some "neutral"⟩] : List ClassifiedKW).length := by decide

/-- The three stage filters cover exactly the items whose effective stage
is in the three-value set. -/
theorem length_filter_three_stages (cks : List ClassifiedKW) :
    (cks.filter (isStage "awareness")).length
      + (cks.filter (isStage "consideration")).length
      + (cks.filter (isStage "conversion")).length
    = (cks.filter (fun c => isStage "awareness" c || isStage "consideration" c
        || isStage "conversion" c)).length := by
  induction cks with
  | nil => rfl
  | cons c rest ih =>
    simp only [List.filter_cons]
    by_cases h1 : stageD c = "awareness"
    · have h2 : ¬ stageD c = "consideration" := by rw [h1]; decide
      have h3 : ¬ stageD c = "conversion" := by rw [h1]; decide
      have b1 : isStage "awareness" c = true := by simp [isStage, h1]
      have b2 : isStage "consideration" c = false := by simp [isStage, h2]
      have b3 : isStage "conversion" c = false := by simp [isStage, h3]
      simp [b1, b2, b3]
      omega
    · by_cases h2 : stageD c = "consideration"
      · have h3 : ¬ stageD c = "conversion" := by rw [h2]; decide
        have b1 : isStage "awareness" c = false := by simp [isStage, h1]
        have b2 : isStage "consideration" c = true := by simp [isStage, h2]
        have b3 : isStage "conversion" c = false := by simp [isStage, h3]
        simp [b1, b2, b3]
        omega
      · by_cases h3 : stageD c = "conversion"
        · have b1 : isStage "awareness" c = false := by simp [isStage, h1]
          have b2 : isStage "consideration" c = false := by simp [isStage, h2]
          have b3 : isStage "conversion" c = true := by simp [isStage, h3]
          simp [b1, b2, b3]
          omega
        · have b1 : isStage "awareness" c = false := by simp [isStage, h1]
          have b2 : isStage "consideration" c = false := by simp [isStage, h2]
          have b3 : isStage "conversion" c = false := by simp [isStage, h3]
          simp [b1, b2, b3]
          exact ih

/-- C2 amended: the three stage keyword counts of the journey report sum
to the number of classified keywords whose effective stage lies in the
fixed three-value set — a record with an out-of-set stage label is
silently dropped from every bucket, so for such inputs the sum falls
short of `len(classified_keywords)`. -/
theorem C2_partition_of_in_set_stages (competitors : List String)
    (cks : List ClassifiedKW) (total_relevant : Nat) :
    (save_consumer_journey competitors cks total_relevant).awareness.keyword_count +
    (save_consumer_journey competitors cks total_relevant).consideration.keyword_count +
    (save_consumer_journey competitors cks total_relevant).conversion.keyword_count
    = (cks.filter (fun c => isStage "awareness" c || isStage "consideration" c
        || isStage "conversion" c)).length := by
  have hcounts :
      (save_consumer_journey competitors cks total_relevant).awareness.keyword_count
        = (cks.filter (isStage "awareness")).length ∧
      (save_consumer_journey competitors cks total_relevant).consideration.keyword_count
        = (cks.filter (isStage "consideration")).length ∧
      (save_consumer_journey competitors cks total_relevant).conversion.keyword_count
        = (cks.filter (isStage "conversion")).length := by
    simp [save_consumer_journey, mkStage, buildBuckets_filters]
  rw [hcounts.1, hcounts.2.1, hcounts.2.2]
  exact length_filter_three_stages cks

/-- C7: the funnel summary equals the guarded, rounded ratio formulas
over the per-stage volumes of the classified list, and both guarded
denominators are strictly positive (no division by zero even for empty
stages). -/
theorem C7_funnel_summary_formulas (competitors : List String)
    (cks : List ClassifiedKW) (total_relevant : Nat) :
    ((save_consumer_journey competitors cks total_relevant).funnel_summary.awareness_to_consideration
      = round2 ((stageVolume "consideration" cks : ℚ)
          / ((max (stageVolume "awareness" cks) 1 : Int) : ℚ))) ∧
    ((save_consumer_journey competitors cks total_relevant).funnel_summary.consideration_to_conversion
      = round2 ((stageVolume "conversion" cks : ℚ)
          / ((max (stageVolume "consideration" cks) 1 : Int) : ℚ))) ∧
    ((save_consumer_journey competitors cks total_relevant).funnel_summary.estimated_leak_rate
      = round2 (1 - (stageVolume "conversion" cks : ℚ)
          / ((max (stageVolume "awareness" cks) 1 : Int) : ℚ))) ∧
    (0 : Int) < max (stageVolume "awareness" cks) 1 ∧
    (0 : Int) < max (stageVolume "consideration" cks) 1 := by
  refine ⟨?_, ?_, ?_, ?_, ?_⟩
  · simp [save_consumer_journey, mkStage, buildBuckets_filters, stageVolume]
  · simp [save_consumer_journey, mkStage, buildBuckets_filters, stageVolume]
  · simp [save_consumer_journey, mkStage, buildBuckets_filters, stageVolume]
  · exact Int.lt_of_lt_of_le Int.zero_lt_one (le_max_right _ _)
  · exact Int.lt_of_lt_of_le Int.zero_lt_one (le_max_right _ _)

/-! ### Lemmas about the exit-signal analyzer -/

/-- The mention counts of the named entries sum to the total of the
per-competitor mention-list lengths (empty mention lists contribute
nothing to either side). -/
theorem namedEntries_sum (cons : List ClassifiedKW) :
    ∀ competitors : List String,
      (((competitors.filterMap (exitEntryFor cons)).map
        (fun p => p.2.mention_count)).sum)
      = (competitors.map (fun comp => (mentionsOf comp cons).length)).sum := by
  intro competitors
  induction competitors with
  | nil => rfl
  | cons c cs ih =>
    rw [List.filterMap_cons, List.map_cons, List.sum_cons]
    by_cases hm : (mentionsOf c cons).isEmpty
    · rw [exitEntryFor, if_pos hm, ih, List.isEmpty_iff.mp hm]
      simp
    · rw [exitEntryFor, if_neg hm, List.map_cons, List.sum_cons, ih]

/-- Sum of indicator values equals `countP`. -/
theorem sum_map_ite_eq_countP (p : α → Bool) :
    ∀ l : List α,
      (l.map (fun a => if p a then 1 else 0)).sum = l.countP p := by
  intro l
  induction l with
  | nil => rfl
  | cons a as ih =>
    rw [List.map_cons, List.sum_cons, ih, List.countP_cons]
    omega

/-- Pointwise sums over a list split additively. -/
theorem sum_map_add_pointwise (f g : α → ℕ) :
    ∀ l : List α, (l.map (fun a => f a + g a)).sum = (l.map f).sum + (l.map g).sum := by
  intro l
  induction l with
  | nil => rfl
  | cons a as ih =>
    simp only [List.map_cons, List.sum_cons, ih]
    omega

/-- Double-counting swap: summing per-competitor mention counts over the
competitor list equals summing per-keyword competitor-match counts over
the consideration list. -/
theorem sum_mentions_swap (cons : List ClassifiedKW) :
    ∀ competitors : List String,
      (competitors.map (fun comp => (mentionsOf comp cons).length)).sum
      = (cons.map (fun k =>
          competitors.countP (fun comp => substr comp (kwD k)))).sum := by
  intro competitors
  induction competitors with
  | nil => simp
  | cons c cs ih =>
    rw [List.map_cons, List.sum_cons, ih]
    have hpt : (cons.map (fun k =>
        (c :: cs).countP (fun comp => substr comp (kwD k)))).sum
        = (cons.map (fun k =>
            cs.countP (fun comp => substr comp (kwD k))
              + if substr c (kwD k) then 1 else 0)).sum := by
      apply congrArg
      apply List.map_congr_left
      intro k _
      rw [List.countP_cons]
    rw [hpt, sum_map_add_pointwise, sum_map_ite_eq_countP, mentionsOf,
      List.countP_eq_length_filter]
    omega

/-- Under the at-most-one-match hypothesis, per-keyword match counts sum
to at most the number of consideration keywords. -/
theorem sum_countP_le_length (competitors : List String) :
    ∀ cons : List ClassifiedKW,
      (∀ k ∈ cons, competitors.countP (fun comp => substr comp (kwD k)) ≤ 1) →
      (cons.map (fun k =>
        competitors.countP (fun comp => substr comp (kwD k)))).sum ≤ cons.length := by
  intro cons
  induction cons with
  | nil => intro _; simp
  | cons k ks ih =>
    intro h
    rw [List.map_cons, List.sum_cons, List.length_cons]
    have h1 := h k (List.mem_cons_self _ _)
    have h2 := ih (fun a ha => h a (List.mem_cons_of_mem _ ha))
    omega

/-- Counterexample to C4 as stated: one consideration keyword mentioning
two configured competitors is counted once per competitor, so the
mention counts sum to 2 while only 1 consideration keyword exists (and no
`"기타"` bucket can repair the overshoot). -/
theorem C4_counterexample :
    (((analyze_exit_signals ["한샘", "이케아"]
        [⟨some "한샘 이케아 비교", some 100, some "consideration"⟩]).map
          (fun p => p.2.mention_count)).sum)
    ≠ (considerationOf
        [⟨some "한샘 이케아 비교", some 100, some "consideration"⟩]).length := by
  decide

/-- C4 amended: provided every consideration keyword's text contains at
most one configured competitor name, the mention counts of the entries of
`analyze_exit_signals` (named competitors plus the `"기타"` bucket when
present) sum to the number of consideration-stage keywords, and the
corresponding unrounded shares sum to 1 whenever the consideration stage
is nonempty. -/
theorem C4_exit_signal_coverage (competitors : List String)
    (cks : List ClassifiedKW)
    (h : ∀ k ∈ considerationOf cks,
      competitors.countP (fun comp => substr comp (kwD k)) ≤ 1) :
    (((analyze_exit_signals competitors cks).map
        (fun p => p.2.mention_count)).sum = (considerationOf cks).length) ∧
    (considerationOf cks ≠ [] →
      (((analyze_exit_signals competitors cks).map
          (fun p => (p.2.mention_count : ℚ))).sum
        / ((max (considerationOf cks).length 1 : ℕ) : ℚ) = 1)) := by
  have htot :
      (((considerationOf cks).map (fun k =>
        competitors.countP (fun comp => substr comp (kwD k)))).sum)
        ≤ (considerationOf cks).length :=
    sum_countP_le_length competitors (considerationOf cks) h
  have hnamed :
      (((competitors.filterMap (exitEntryFor (considerationOf cks))).map
        (fun p => p.2.mention_count)).sum)
      = (((considerationOf cks).map (fun k =>
          competitors.countP (fun comp => substr comp (kwD k)))).sum) := by
    rw [namedEntries_sum, sum_mentions_swap]
  have hmain :
      (((analyze_exit_signals competitors cks).map
        (fun p => p.2.mention_count)).sum = (considerationOf cks).length) := by
    rw [analyze_exit_signals]
    by_cases hpos : (0 : Int) <
        ((considerationOf cks).length : Int)
        - (((competitors.filterMap (exitEntryFor (considerationOf cks))).map
            (fun p => p.2.mention_count)).sum)
    · rw [if_pos hpos]
      simp only [List.map_append, List.sum_append, List.map_cons, List.sum_cons,
        List.map_nil, List.sum_nil]
      omega
    · rw [if_neg hpos]
      omega
  refine ⟨hmain, ?_⟩
  intro hne
  have hlen : 1 ≤ (considerationOf cks).length :=
    Nat.one_le_iff_ne_zero.mpr (fun h0 => hne (List.length_eq_zero.mp h0))
  have hsumcast : ∀ l : List (String × ExitEntry),
      (l.map (fun p => (p.2.mention_count : ℚ))).sum
        = (((l.map (fun p => p.2.mention_count)).sum : ℕ) : ℚ) := by
    intro l
    induction l with
    | nil => simp
    | cons a as ih => simp [ih]
  have hcast :
      (((analyze_exit_signals competitors cks).map
        (fun p => (p.2.mention_count : ℚ))).sum)
      = (((considerationOf cks).length : ℕ) : ℚ) := by
    rw [hsumcast, hmain]
  rw [hcast, Nat.max_eq_left hlen]
  exact div_self (by exact_mod_cast Nat.one_le_iff_ne_zero.mp hlen)

/-- Witness for C4 amended: two consideration keywords, one mentioning
the single competitor and one mentioning none, give mention counts
1 (named) + 1 (`"기타"`) = 2. -/
theorem C4_witness :
    (((analyze_exit_signals ["한샘"]
        [⟨some "한샘 소파", some 100, some "consideration"⟩,
         ⟨some "원목 책상", some 50, some "consideration"⟩]).map
          (fun p => p.2.mention_count)).sum)
    = (considerationOf
        [⟨some "한샘 소파", some 100, some "consideration"⟩,
         ⟨some "원목 책상", some 50, some "consideration"⟩]).length :=
  (C4_exit_signal_coverage ["한샘"]
    [⟨some "한샘 소파", some 100, some "consideration"⟩,
     ⟨some "원목 책상", some 50, some "consideration"⟩]
    (by decide)).1

/-- A key absent from every pair of an association list looks up to
`none`. -/
theorem lookup_eq_none_of_keys (comp : String) :
    ∀ l : List (String × ExitEntry), (∀ p ∈ l, p.1 ≠ comp) →
      List.lookup comp l = none := by
  intro l
  induction l with
  | nil => intro _; rfl
  | cons p ps ih =>
    intro h
    obtain ⟨k, v⟩ := p
    rw [List.lookup_cons]
    have hk : k ≠ comp := h (k, v) (List.mem_cons_self _ _)
    have : (comp == k) = false := by
      simp only [beq_eq_false_iff_ne, ne_eq]
      exact fun he => hk he.symm
    rw [this]
    exact ih (fun q hq => h q (List.mem_cons_of_mem _ hq))

/-- Every key of the named-entry list is one of the configured
competitors. -/
theorem named_keys_mem (cons : List ClassifiedKW) :
    ∀ (competitors : List String) (p : String × ExitEntry),
      p ∈ competitors.filterMap (exitEntryFor cons) → p.1 ∈ competitors := by
  intro competitors p hp
  obtain ⟨a, ha, he⟩ := List.mem_filterMap.mp hp
  rw [exitEntryFor] at he
  by_cases hm : (mentionsOf a cons).isEmpty
  · rw [if_pos hm] at he
    cases he
  · rw [if_neg hm] at he
    cases he
    exact ha

/-- Looking a configured competitor up in the named-entry list succeeds
exactly when the competitor has a nonempty mention list. -/
theorem lookup_named_isSome (cons : List ClassifiedKW) :
    ∀ (competitors : List String) (comp : String),
      competitors.Nodup → comp ∈ competitors →
      (List.lookup comp (competitors.filterMap (exitEntryFor cons))).isSome
        = !(mentionsOf comp cons).isEmpty := by
  intro competitors
  induction competitors with
  | nil => intro comp _ h; cases h
  | cons c cs ih =>
    intro comp hnd hmem
    obtain ⟨hcnot, hnd'⟩ := List.nodup_cons.mp hnd
    rw [List.filterMap_cons]
    rcases List.mem_cons.mp hmem with rfl | hmem'
    · by_cases hm : (mentionsOf comp cons).isEmpty
      · rw [exitEntryFor, if_pos hm, hm]
        rw [lookup_eq_none_of_keys comp _
          (fun p hp hpc => hcnot (hpc ▸ named_keys_mem cons cs p hp))]
        rfl
      · rw [exitEntryFor, if_neg hm]
        rw [List.lookup_cons]
        simp only [beq_self_eq_true]
        rw [Bool.eq_false_iff.mpr hm]
        rfl
    · have hne : comp ≠ c := fun he => hcnot (he ▸ hmem')
      by_cases hm : (mentionsOf c cons).isEmpty
      · rw [exitEntryFor, if_pos hm]
        exact ih comp hnd' hmem'
      · rw [exitEntryFor, if_neg hm]
        rw [List.lookup_cons]
        have : (comp == c) = false := by
          simp only [beq_eq_false_iff_ne, ne_eq]
          exact hne
        rw [this]
        exact ih comp hnd' hmem'

/-- C9: under the repository's configuration (distinct competitor names,
none of them the literal `"기타"`), a named competitor has an entry in
the exit-signal mapping iff it is mentioned by at least one
consideration keyword, and the synthetic `"기타"` bucket is present iff
its computed leftover count is strictly positive. -/
theorem C9_exit_entry_presence (competitors : List String)
    (cks : List ClassifiedKW)
    (hnd : competitors.Nodup) (hg : "기타" ∉ competitors) :
    (∀ comp ∈ competitors,
      (List.lookup comp (analyze_exit_signals competitors cks)).isSome = true
        ↔ 1 ≤ (mentionsOf comp (considerationOf cks)).length) ∧
    ((List.lookup "기타" (analyze_exit_signals competitors cks)).isSome = true
        ↔ 0 < ((considerationOf cks).length : Int)
            - (((competitors.map (fun comp =>
                (mentionsOf comp (considerationOf cks)).length)).sum : ℕ) : Int)) := by
  have hnone : List.lookup "기타"
      (competitors.filterMap (exitEntryFor (considerationOf cks))) = none :=
    lookup_eq_none_of_keys _ _
      (fun p hp hpg => hg (hpg ▸ named_keys_mem _ competitors p hp))
  have hsum : (((competitors.filterMap (exitEntryFor (considerationOf cks))).map
        (fun p => p.2.mention_count)).sum)
      = (competitors.map (fun comp =>
          (mentionsOf comp (considerationOf cks)).length)).sum :=
    namedEntries_sum (considerationOf cks) competitors
  constructor
  · intro comp hcm
    have hcg : comp ≠ "기타" := fun he => hg (he ▸ hcm)
    have hmain := lookup_named_isSome (considerationOf cks) competitors comp hnd hcm
    rw [analyze_exit_signals]
    by_cases hpos : (0 : Int) <
        ((considerationOf cks).length : Int)
        - (((competitors.filterMap (exitEntryFor (considerationOf cks))).map
            (fun p => p.2.mention_count)).sum)
    · rw [if_pos hpos, List.lookup_append]
      have htail : ∀ e : ExitEntry,
          List.lookup comp ([("기타", e)] : List (String × ExitEntry)) = none := by
        intro e
        rw [List.lookup_cons]
        have : (comp == "기타") = false := by
          simp only [beq_eq_false_iff_ne, ne_eq]
          exact hcg
        rw [this]
        rfl
      rw [htail, Option.or_none, hmain]
      cases hmm : mentionsOf comp (considerationOf cks) <;> simp
    · rw [if_neg hpos, hmain]
      cases hmm : mentionsOf comp (considerationOf cks) <;> simp
  · rw [analyze_exit_signals]
    by_cases hpos : (0 : Int) <
        ((considerationOf cks).length : Int)
        - (((competitors.filterMap (exitEntryFor (considerationOf cks))).map
            (fun p => p.2.mention_count)).sum)
    · rw [if_pos hpos, List.lookup_append, hnone, Option.none_or,
        List.lookup_cons]
      simp only [beq_self_eq_true]
      rw [hsum] at hpos
      exact iff_of_true rfl hpos
    · rw [if_neg hpos, hnone]
      rw [hsum] at hpos
      exact iff_of_false (by simp) hpos

/-- Witness for C9: with competitors `["한샘", "이케아"]` and one
consideration keyword mentioning `"한샘"`, the mentioned competitor's
entry is present and the unmentioned one's is absent. -/
theorem C9_witness :
    ((List.lookup "한샘" (analyze_exit_signals ["한샘", "이케아"]
        [⟨some "한샘 침대", some 10, some "consideration"⟩])).isSome = true
      ↔ 1 ≤ (mentionsOf "한샘" (considerationOf
          [⟨some "한샘 침대", some 10, some "consideration"⟩])).length) ∧
    ((List.lookup "이케아" (analyze_exit_signals ["한샘", "이케아"]
        [⟨some "한샘 침대", some 10, some "consideration"⟩])).isSome = true
      ↔ 1 ≤ (mentionsOf "이케아" (considerationOf
          [⟨some "한샘 침대", some 10, some "consideration"⟩])).length) :=
  ⟨(C9_exit_entry_presence ["한샘", "이케아"]
      [⟨some "한샘 침대", some 10, some "consideration"⟩]
      (by decide) (by decide)).1 "한샘" (by decide),
   (C9_exit_entry_presence ["한샘", "이케아"]
      [⟨some "한샘 침대", some 10, some "consideration"⟩]
      (by decide) (by decide)).1 "이케아" (by decide)⟩

/-- C10: with no consideration-stage keywords, the exit-signal analyzer
returns the empty mapping, the journey's consideration stage carries no
`exit_signals` field, and `primary_leak_destination` is `"unknown"`. -/
theorem C10_empty_consideration (competitors : List String)
    (cks : List ClassifiedKW) (total_relevant : Nat)
    (h : ∀ c ∈ cks, c.stage ≠ some "consideration") :
    analyze_exit_signals competitors cks = [] ∧
    (save_consumer_journey competitors cks total_relevant).consideration.exit_signals
      = none ∧
    (save_consumer_journey competitors cks total_relevant).funnel_summary.primary_leak_destination
      = "unknown" := by
  have hcons : considerationOf cks = [] := by
    rw [considerationOf, List.filter_eq_nil_iff]
    intro a ha
    simp only [decide_eq_true_eq]
    exact h a ha
  have hnamed : competitors.filterMap (exitEntryFor (considerationOf cks)) = [] := by
    rw [List.filterMap_eq_nil_iff]
    intro a _
    rw [exitEntryFor, if_pos]
    rw [hcons]
    rfl
  have hex : analyze_exit_signals competitors cks = [] := by
    rw [analyze_exit_signals, hnamed, hcons]
    rfl
  refine ⟨hex, ?_, ?_⟩
  · simp [save_consumer_journey, mkStage, hex]
  · simp [save_consumer_journey, mkStage, hex, primaryLeak]

/-- Witness for C10: an awareness-only classified set yields
`"unknown"` as primary leak destination. -/
theorem C10_witness :
    (save_consumer_journey ["한샘"]
      [⟨some "원목 책상", some 5, some "awareness"⟩] 1).funnel_summary.primary_leak_destination
    = "unknown" :=
  (C10_empty_consideration ["한샘"]
    [⟨some "원목 책상", some 5, some "awareness"⟩] 1 (by decide)).2.2

/-! ### Lemmas about the persona-cluster report -/

/-- Insertion keeps exactly the inserted element plus the old ones. -/
theorem mem_insertDescBy (key : α → Int) (c x : α) :
    ∀ l : List α, x ∈ insertDescBy key c l ↔ x = c ∨ x ∈ l := by
  intro l
  induction l with
  | nil => simp [insertDescBy]
  | cons a as ih =>
    rw [insertDescBy]
    by_cases hk : key a ≤ key c
    · rw [if_pos hk]
      simp [List.mem_cons]
    · rw [if_neg hk]
      simp only [List.mem_cons, ih]
      tauto

/-- Sorting preserves membership. -/
theorem mem_sortDescBy (key : α → Int) (x : α) :
    ∀ l : List α, x ∈ sortDescBy key l ↔ x ∈ l := by
  intro l
  induction l with
  | nil => simp [sortDescBy]
  | cons a as ih =>
    rw [sortDescBy, mem_insertDescBy, ih, List.mem_cons]

/-- Placeholder output cluster used by the safe indexer (its
`top_keywords` is empty, so out-of-range indices contribute no
keywords). -/
def dummyCluster : OutCluster :=
  { id := "", persona := "", description := "", color := "",
    keyword_count := 0, total_volume := 0, share := 0,
    top_keywords := [], needs := [], pain_points := [] }

/-- Counterexample to C8 as stated: an oracle response whose cluster
carries the keyword `"phantom"`, which is not in the top-300 slice of
the one-keyword input pool, still puts `"phantom"` into the saved
cluster report — the code never validates cluster members against the
slice. -/
theorem C8_counterexample :
    ((clusterReport
        (fun _ => some ⟨[⟨some "c1", some "p", some "d",
          [⟨some "phantom", some 1⟩], [], []⟩]⟩)
        [⟨"real", 100⟩]).map (fun c => c.top_keywords))
      = [[⟨some "phantom", some 1⟩]] ∧
    "phantom" ∉ (([⟨"real", 100⟩] : List KeywordRec).take 300).map
      (fun k => k.keyword) := by
  constructor
  · rfl
  · decide

/-- C8 amended: the slice embedded in the clustering request is exactly
the top-300 prefix `keywords[:300]` of the relevant pool, and every
keyword of every cluster of the saved report comes from the oracle's
response clusters — the code does not check response keywords against
the slice, so only response membership (not slice membership) is
guaranteed. -/
theorem C8_cluster_keywords_from_response :
    (∀ (oracle : ClusterOracle) (keywords : List KeywordRec),
      cluster_personas oracle keywords = oracle (keywords.take 300)) ∧
    (∀ (resp : ClusterResult) (i : Nat) (k : CKV),
      k ∈ ((save_keyword_clusters resp).getD i dummyCluster).top_keywords →
      ∃ rc ∈ resp.clusters, k ∈ rc.keywords) := by
  refine ⟨fun _ _ => rfl, ?_⟩
  intro resp i k hk
  by_cases hi : i < (save_keyword_clusters resp).length
  · have hlen : (save_keyword_clusters resp).length = resp.clusters.length := by
      rw [save_keyword_clusters]
      simp
    rw [List.getD_eq_getElem?_getD, List.getElem?_eq_getElem hi] at hk
    have hi2 : i < resp.clusters.length := hlen ▸ hi
    have hcl : ((save_keyword_clusters resp)[i]).top_keywords
        = (sortDescBy cvolD (resp.clusters[i]).keywords).take 7 := by
      simp only [save_keyword_clusters, List.getElem_map, List.getElem_zip,
        List.getElem_range]
    rw [Option.getD_some, hcl] at hk
    have hmem : k ∈ sortDescBy cvolD (resp.clusters[i]).keywords :=
      List.take_subset 7 _ hk
    rw [mem_sortDescBy] at hmem
    exact ⟨resp.clusters[i], List.getElem_mem hi2, hmem⟩
  · rw [List.getD_eq_getElem?_getD, List.getElem?_eq_none (Nat.le_of_not_lt hi)] at hk
    cases hk

/-- Witness for C8 amended: a keyword of the saved report's first
cluster is found among the response's cluster keywords. -/
theorem C8_witness :
    ∃ rc ∈ (⟨[⟨some "c1", some "p", some "d",
        [⟨some "가구", some 9⟩], [], []⟩]⟩ : ClusterResult).clusters,
      (⟨some "가구", some 9⟩ : CKV) ∈ rc.keywords :=
  C8_cluster_keywords_from_response.2
    ⟨[⟨some "c1", some "p", some "d", [⟨some "가구", some 9⟩], [], []⟩]⟩
    0 ⟨some "가구", some 9⟩ (by decide)

end ClassifyKeywords
